import Mathlib

/-!
Verification of the RBR Instant Lite Lab front-end (`src/src/App.jsx`, with
earlier iterations in `src/unnamed/part_000` .. `part_003`).

The development shallowly embeds the history store, the status-URL
derivation, the polling tick (`checkOnce`), the synthetic progress
indicator, the `generate` orchestration, and the selection model
(`removeItem`, the history auto-populate effect).  External browser
capabilities that the code calls but does not define (the WHATWG `URL`
parser, `JSON.parse`, `Date` parsing) are passed in as explicit function
parameters, so theorems quantify over every behaviour of those
collaborators; concrete instantiations consistent with real browser
behaviour are used for counterexamples.

JavaScript strings are modelled as `String`, JS `null`/string unions as
`Option String`, and JS truthiness of a string (`""` falsy) is made
explicit at each use site.  String primitives (`trim`, `endsWith`,
`toLowerCase` on the ASCII data that actually flows through this app) are
implemented over `String.data` so that every definition evaluates by
kernel reduction.
-/

namespace Rbr

/-- `MAX_WAIT_MS` from `App.jsx` line 5: the 2-minute polling ceiling. -/
def MAX_WAIT_MS : Nat := 120000

/-- `POLL_EVERY_MS` from `App.jsx` line 6: the fixed 2.5 s poll interval. -/
def POLL_EVERY_MS : Nat := 2500

/-- `CLIENT_TIMEOUT_MS` from `App.jsx` line 17. -/
def CLIENT_TIMEOUT_MS : Nat := 25000

/-- `STORAGE_KEY` from `App.jsx` line 16. -/
def STORAGE_KEY : String := "rbr_instant_lab_history_v1"

/-- Suffix test on strings, over the underlying character list (models
JS `String`/regex end-anchored matching on ASCII data). -/
def strEndsWith (s p : String) : Bool := p.data.isSuffixOf s.data

/-- Drop the last `n` characters of a string. -/
def strDropRight (s : String) (n : Nat) : String :=
  ⟨s.data.take (s.data.length - n)⟩

/-- First `n` characters of a string (models JS `slice(0, n)`). -/
def strTake (s : String) (n : Nat) : String := ⟨s.data.take n⟩

/-- The whitespace characters relevant to the ASCII inputs of this app
(JS `trim` also strips further Unicode space; none occurs here). -/
def jsIsWhite (c : Char) : Bool := c = ' ' || c = '\t' || c = '\n' || c = '\r'

/-- Models JS `String.prototype.trim` on the ASCII data of this app. -/
def jsTrim (s : String) : String :=
  ⟨((s.data.dropWhile jsIsWhite).reverse.dropWhile jsIsWhite).reverse⟩

/-- Models JS `toLowerCase` on the ASCII status strings of this app. -/
def toLowerAscii (s : String) : String := ⟨s.data.map Char.toLower⟩

/-- JS `a || b` on strings: `""` is falsy. -/
def jsOrS (a b : String) : String := if a = "" then b else a

/-- JS `a || b` where `a` is a nullable string (`leftId || prevRight`):
both `null` and `""` are falsy. -/
def jsOrId (a b : Option String) : Option String :=
  match a with
  | some s => if s = "" then b else some s
  | none => b

/-- JS `a ?? b` on nullable strings: only `null` falls through. -/
def jsNullish (a b : Option String) : Option String :=
  match a with
  | some s => some s
  | none => b

/-- `clamp` from `App.jsx` lines 40-42: `Math.max(a, Math.min(b, n))`. -/
def clamp (n a b : Int) : Int := max a (min b n)

/-! ## Persisted history loading (`loadHistory`, `App.jsx` lines 19-28) -/

/-- A JSON value as produced by `JSON.parse`.  Numbers are kept as their
source text; no claim depends on numeric semantics. -/
inductive JsValue where
  | null : JsValue
  | boolean (b : Bool) : JsValue
  | number (text : String) : JsValue
  | string (s : String) : JsValue
  | array (elems : List JsValue) : JsValue
  | object (fields : List (String × JsValue)) : JsValue

/-- `loadHistory` from `App.jsx` lines 19-28.  `parse` is the external
`JSON.parse`, returning `none` when it would throw; `raw` is
`localStorage.getItem(STORAGE_KEY)` (`none` = key absent).  The JS
`try`/`catch` that swallows a parse exception is the `none` branch of
`parse`; the function is total, so no exception escapes. -/
def loadHistory (parse : String → Option JsValue) (raw : Option String) :
    List JsValue :=
  match raw with
  | none => []
  | some s =>
    if s = "" then []
    else
      match parse s with
      | none => []
      | some (JsValue.array elems) => elems
      | some _ => []

/-! ## Status-URL derivation (`deriveStatusUrl`, `App.jsx` lines 77-86) -/

/-- A parsed WHATWG `URL` object as used by `deriveStatusUrl`: the code
reads and mutates `pathname` and then serialises with `toString()`.
`render` is the serialisation as a function of the (possibly mutated)
pathname; `u.toString()` before any mutation is `u.render u.pathname`. -/
structure JsUrl where
  pathname : String
  render : String → String

/-- The regex substitution `pathname.replace(/\/confirm\/?$/, "/status")`
from `App.jsx` line 81: a trailing `/confirm` or `/confirm/` becomes
`/status`; any other pathname is unchanged. -/
def replaceConfirmSuffix (p : String) : String :=
  if strEndsWith p "/confirm/" then strDropRight p 9 ++ "/status"
  else if strEndsWith p "/confirm" then strDropRight p 8 ++ "/status"
  else p

/-- `deriveStatusUrl` from `App.jsx` lines 77-86.  `parse` is the
external `new URL(...)` constructor, `none` when it would throw. -/
def deriveStatusUrl (parse : String → Option JsUrl)
    (confirmUrl explicitStatusUrl : String) : String :=
  if explicitStatusUrl ≠ "" then explicitStatusUrl
  else
    match parse confirmUrl with
    | none => ""
    | some u => u.render (replaceConfirmSuffix u.pathname)

/-- A `JSON.parse` oracle that always throws (models non-JSON text). -/
def parseAlwaysThrows : String → Option JsValue := fun _ => none

/-- Claim C9: for every content of the persisted storage slot — absent,
empty, non-JSON text, or JSON that is not an array — `loadHistory`
returns the empty list (and, being total, raises no exception); only a
well-formed JSON array is returned as the history. -/
theorem loadHistory_total_and_array_only
    (parse : String → Option JsValue) (raw : Option String) :
    (raw = none → loadHistory parse raw = []) ∧
    (raw = some "" → loadHistory parse raw = []) ∧
    (∀ s, raw = some s → parse s = none → loadHistory parse raw = []) ∧
    (∀ s v, raw = some s → parse s = some v →
      (∀ elems, v ≠ JsValue.array elems) → loadHistory parse raw = []) ∧
    (∀ s elems, raw = some s → s ≠ "" → parse s = some (JsValue.array elems) →
      loadHistory parse raw = elems) := by
  refine ⟨fun h => by subst h; rfl, fun h => by subst h; rfl, ?_, ?_, ?_⟩
  · intro s hraw hp
    subst hraw
    by_cases hs : s = "" <;> simp [loadHistory, hs, hp]
  · intro s v hraw hp hv
    subst hraw
    by_cases hs : s = ""
    · simp [loadHistory, hs]
    · cases v with
      | array elems => exact absurd rfl (hv elems)
      | null => simp [loadHistory, hs, hp]
      | boolean b => simp [loadHistory, hs, hp]
      | number t => simp [loadHistory, hs, hp]
      | string t => simp [loadHistory, hs, hp]
      | object f => simp [loadHistory, hs, hp]
  · intro s elems hraw hs hp
    subst hraw
    simp [loadHistory, hs, hp]

/-- Witness for C9: malformed JSON text in the storage slot loads as the
empty history. -/
theorem loadHistory_total_and_array_only_witness :
    loadHistory parseAlwaysThrows (some "not a json text") = [] :=
  (loadHistory_total_and_array_only parseAlwaysThrows
    (some "not a json text")).2.2.1 "not a json text" rfl rfl

/-- A `new URL` oracle for the single input `"https://h/x/confirm/"`,
consistent with WHATWG parsing: pathname `/x/confirm/`, serialisation
re-attaching scheme and host. -/
def parseUrlTrailingSlash : String → Option JsUrl := fun s =>
  if s = "https://h/x/confirm/" then
    some ⟨"/x/confirm/", fun p => "https://h" ++ p⟩
  else none

/-- Counterexample to claim C10 as stated: with no explicit status URL,
the confirm URL `https://h/x/confirm/` parses to a pathname that does
NOT end in `"/confirm"` (it ends in `"/confirm/"`), yet `deriveStatusUrl`
does not return the normalized confirm URL itself — the trailing
`/confirm/` is still rewritten to `/status`. -/
theorem deriveStatusUrl_trailing_slash_counterexample :
    strEndsWith "/x/confirm/" "/confirm" = false ∧
    deriveStatusUrl parseUrlTrailingSlash "https://h/x/confirm/" ""
      = "https://h/x/status" ∧
    "https://h/x/status" ≠ "https://h/x/confirm/" := by
  refine ⟨by decide, rfl, by decide⟩

/-- Claim C10 (amended): `deriveStatusUrl` returns `explicitStatusUrl`
unchanged whenever it is non-empty, regardless of `confirmUrl`; when
`explicitStatusUrl` is empty and `confirmUrl` does not parse as a URL it
returns `""`; and when `explicitStatusUrl` is empty and `confirmUrl`
parses as a URL whose path ends neither in `"/confirm"` nor in
`"/confirm/"`, it returns the normalized confirm URL itself (the parsed
URL re-serialised with its pathname untouched). -/
theorem deriveStatusUrl_spec (parse : String → Option JsUrl)
    (confirmUrl explicitStatusUrl : String) :
    (explicitStatusUrl ≠ "" →
      deriveStatusUrl parse confirmUrl explicitStatusUrl = explicitStatusUrl) ∧
    (explicitStatusUrl = "" → parse confirmUrl = none →
      deriveStatusUrl parse confirmUrl explicitStatusUrl = "") ∧
    (∀ u, explicitStatusUrl = "" → parse confirmUrl = some u →
      strEndsWith u.pathname "/confirm" = false →
      strEndsWith u.pathname "/confirm/" = false →
      deriveStatusUrl parse confirmUrl explicitStatusUrl
        = u.render u.pathname) := by
  refine ⟨fun h => by simp [deriveStatusUrl, h], ?_, ?_⟩
  · intro he hp
    simp [deriveStatusUrl, he, hp]
  · intro u he hp h8 h9
    simp [deriveStatusUrl, he, hp, replaceConfirmSuffix, h8, h9]

/-- A parsed URL whose pathname does not mention `confirm`. -/
def urlPlainApi : JsUrl := ⟨"/api", fun p => "https://h" ++ p⟩

/-- A `new URL` oracle returning `urlPlainApi` for every input. -/
def parseUrlPlainApi : String → Option JsUrl := fun _ => some urlPlainApi

/-- Witness for C10 (amended): a confirm URL whose path is `/api` is
returned as-is (re-serialised) when no explicit status URL is set. -/
theorem deriveStatusUrl_spec_witness :
    deriveStatusUrl parseUrlPlainApi "https://h/api" ""
      = urlPlainApi.render urlPlainApi.pathname :=
  (deriveStatusUrl_spec parseUrlPlainApi "https://h/api" "").2.2
    urlPlainApi rfl rfl (by decide) (by decide)

/-! ## Data model -/

/-- The fields of the confirm-endpoint JSON body that `App.jsx` reads.
A missing JS field and an empty string are observably identical through
the truthiness tests the code applies, so both are modelled as `""`
(resp. `false` for `ok`). -/
structure ConfirmData where
  ok : Bool := false
  userPhone : String := ""
  instantId : String := ""
  createdAt : String := ""
  error : String := ""
  message : String := ""
  details : String := ""
  raw : String := ""
deriving Repr, DecidableEq

/-- The fields of the status-endpoint JSON body that `App.jsx` reads. -/
structure StatusData where
  ok : Bool := false
  status : String := ""
  error : String := ""
  createdAt : String := ""
  title : String := ""
  pdfUrl : String := ""
  s3Bucket : String := ""
  s3Key : String := ""
deriving Repr, DecidableEq

/-- One history entry, as built by `generate` in `App.jsx` lines 339-353.
The `apiResponse` diagnostic payload is carried as the raw confirm and
status bodies. -/
structure JobRecord where
  id : String
  createdAt : String
  topic : String
  title : String
  instantId : String
  pdfUrl : String
  status : String
  s3Bucket : String
  s3Key : String
  apiConfirm : ConfirmData := {}
  apiStatus : StatusData := {}
deriving Repr, DecidableEq

/-- `buildErrorMessage` from `App.jsx` lines 63-75.  `status` is
`res.status` with `0` for an absent response object. -/
def buildErrorMessage (status : Nat)
    (error message details raw fallback : String) : String :=
  let base := jsOrS error (jsOrS message (jsOrS details
    (jsOrS (strTake raw 200) fallback)))
  if status = 504 then
    "Upstream timeout (OpenAI). Try again. Details: " ++ base
  else
    jsOrS base (jsOrS fallback
      ("HTTP " ++ (if status = 0 then "error" else toString status)))

/-! ## The polling tick (`checkOnce`, `App.jsx` lines 197-244) -/

/-- The terminal effect of one `checkOnce` invocation: each `throw` in
the source is one error constructor, `return data` on `done` is `done`,
and `return null` (keep polling) is `continuePolling`. -/
inductive TickResult where
  | errStatusCheck (msg : String) : TickResult
  | errFailed (msg : String) : TickResult
  | done (d : StatusData) : TickResult
  | errTimedOut : TickResult
  | continuePolling : TickResult
deriving Repr, DecidableEq

/-- The message of the timeout throw in `App.jsx` lines 238-240. -/
def msgTimedOut : String :=
  "Still not done after 2 minutes. Please try again or check worker logs."

/-- `checkOnce` from `App.jsx` lines 197-244, as a function of the tick's
HTTP outcome (`resOk`, `data`) and the wall-clock time elapsed since
polling started.  The source order is decisive: the ok-check, then
`failed`, then `done`, and only then the `elapsed > MAX_WAIT_MS`
timeout check. -/
def checkOnce (resStatus : Nat) (resOk : Bool) (data : StatusData)
    (elapsedMs : Nat) : TickResult :=
  if !resOk || !data.ok then
    TickResult.errStatusCheck
      (buildErrorMessage resStatus data.error "" "" "" "Status check failed")
  else
    let status := toLowerAscii data.status
    if status = "failed" then
      TickResult.errFailed (jsOrS data.error "Worker failed.")
    else if status = "done" then TickResult.done data
    else if elapsedMs > MAX_WAIT_MS then TickResult.errTimedOut
    else TickResult.continuePolling

/-- A status body reporting `done`, as returned by the remote endpoint. -/
def sdDone : StatusData :=
  { ok := true, status := "done", pdfUrl := "https://x/y.pdf" }

/-- Counterexample to claim C2 as stated: on a tick taken after the
2-minute ceiling has been exceeded (elapsed = `MAX_WAIT_MS + 1`), a
remote status of `"done"` still terminates the cycle in `Done`, not in
`TimedOut` — `checkOnce` tests `done`/`failed` before the ceiling. -/
theorem checkOnce_done_beats_timeout_counterexample :
    MAX_WAIT_MS + 1 > MAX_WAIT_MS ∧
    checkOnce 200 true sdDone (MAX_WAIT_MS + 1) = TickResult.done sdDone ∧
    checkOnce 200 true sdDone (MAX_WAIT_MS + 1) ≠ TickResult.errTimedOut := by
  refine ⟨Nat.lt_succ_self _, by decide, by decide⟩

/-- Claim C2 (amended): a tick whose response is ok and whose reported
status (lower-cased) is neither `"failed"` nor `"done"` terminates the
polling cycle in `TimedOut` whenever the wall-clock time elapsed since
polling started exceeds `MAX_WAIT_MS`; but a `"done"` or `"failed"`
status on that same tick instead ends the cycle in `Done`/`Failed`, even
past the ceiling. -/
theorem checkOnce_timeout_spec (resStatus : Nat) (data : StatusData)
    (elapsedMs : Nat)
    (hok : data.ok = true)
    (hnf : toLowerAscii data.status ≠ "failed")
    (hnd : toLowerAscii data.status ≠ "done")
    (helapsed : elapsedMs > MAX_WAIT_MS) :
    checkOnce resStatus true data elapsedMs = TickResult.errTimedOut := by
  simp [checkOnce, hok, hnf, hnd, helapsed]

/-- Witness for C2 (amended): a `"running"` status on a tick 1 ms past
the ceiling yields `TimedOut`. -/
theorem checkOnce_timeout_spec_witness :
    checkOnce 200 true { ok := true, status := "running" } 120001
      = TickResult.errTimedOut :=
  checkOnce_timeout_spec 200 { ok := true, status := "running" } 120001
    rfl (by decide) (by decide) (by decide)

/-! ## Synthetic progress (`pollStatusUntilDone`, `App.jsx` lines 186-229)

The polling cycle starts by setting `progressPct` to 8 (line 190); the
progress interval then repeatedly applies
`p => clamp(p + (p < 60 ? 3 : p < 85 ? 2 : 1), 0, 90)` (line 192); the
`done` transition sets 100 (line 225).  A cycle's observable progress
values are therefore the iterates of that step from 8, followed by 100
exactly when the cycle ends in `Done`. -/

/-- One firing of the progress interval, `App.jsx` line 192. -/
def progressStep (p : Int) : Int :=
  clamp (p + (if p < 60 then 3 else if p < 85 then 2 else 1)) 0 90

/-- Progress after `n` firings of the interval within one cycle. -/
def progressAfter : Nat → Int
  | 0 => 8
  | n + 1 => progressStep (progressAfter n)

/-- The successive progress observations of one polling cycle with `n`
interval firings; `endsDone` records whether the cycle ends in the
`Done` terminal state (which sets 100). -/
def pollCycleObs (n : Nat) (endsDone : Bool) : List Int :=
  (List.range (n + 1)).map progressAfter ++ (if endsDone then [100] else [])

theorem progressStep_le (p : Int) (h : p ≤ 90) : p ≤ progressStep p := by
  unfold progressStep clamp
  split_ifs <;> omega

theorem progressStep_le_90 (p : Int) : progressStep p ≤ 90 := by
  unfold progressStep clamp
  split_ifs <;> omega

theorem progressAfter_bounds (n : Nat) :
    8 ≤ progressAfter n ∧ progressAfter n ≤ 90 := by
  induction n with
  | zero => exact ⟨by decide, by decide⟩
  | succ n ih =>
    refine ⟨le_trans ih.1 ?_, progressStep_le_90 _⟩
    exact progressStep_le _ ih.2

/-- Claim C3: within one polling cycle the observable progress is
non-decreasing across successive observations, is strictly below 100 at
every observation except the one made in the `Done` terminal state, and
the `Done` transition sets it to exactly 100. -/
theorem pollCycle_progress (n : Nat) (endsDone : Bool) :
    List.Chain' (fun a b => a ≤ b) (pollCycleObs n endsDone) ∧
    (∀ p ∈ pollCycleObs n false, p < 100) ∧
    (∀ p ∈ (pollCycleObs n true).dropLast, p < 100) ∧
    (pollCycleObs n true).getLast? = some 100 := by
  have hmap : ∀ m, List.Chain' (fun a b : Int => a ≤ b)
      ((List.range (m + 1)).map progressAfter) := by
    intro m
    rw [List.chain'_map, List.chain'_range_succ]
    intro k _
    exact progressStep_le _ (progressAfter_bounds k).2
  have hlast : ∀ m, ((List.range (m + 1)).map progressAfter).getLast?
      = some (progressAfter m) := by
    intro m
    rw [List.range_succ, List.map_append]
    exact List.getLast?_concat _
  have hmem : ∀ m, ∀ p ∈ (List.range (m + 1)).map progressAfter, p < 100 := by
    intro m p hp
    rcases List.mem_map.mp hp with ⟨k, _, rfl⟩
    have := (progressAfter_bounds k).2
    omega
  refine ⟨?_, ?_, ?_, ?_⟩
  · cases endsDone with
    | false => simpa [pollCycleObs] using hmap n
    | true =>
      rw [pollCycleObs, if_pos rfl, List.chain'_append]
      refine ⟨hmap n, List.chain'_singleton _, ?_⟩
      intro x hx y hy
      rw [hlast n] at hx
      simp only [List.head?_cons, Option.mem_def, Option.some.injEq] at hx hy
      subst hx; subst hy
      have := (progressAfter_bounds n).2
      omega
  · intro p hp
    simp only [pollCycleObs, if_neg Bool.false_ne_true, List.append_nil] at hp
    exact hmem n p hp
  · intro p hp
    rw [pollCycleObs, if_pos rfl, List.dropLast_concat] at hp
    exact hmem n p hp
  · rw [pollCycleObs, if_pos rfl]
    exact List.getLast?_concat _

/-- Witness for C3: applying the theorem at a concrete cycle (two
interval firings, ending in `Done`): the first observation is 8, which
is below 100, and the final observation is exactly 100. -/
theorem pollCycle_progress_witness :
    (8 : Int) < 100 ∧ (pollCycleObs 2 true).getLast? = some 100 :=
  ⟨(pollCycle_progress 2 true).2.2.1 8 (by decide),
   (pollCycle_progress 2 true).2.2.2⟩

/-! ## The `generate` orchestration (`App.jsx` lines 265-369)

`generate` is embedded as a pure transition on the observable state
(history, the two viewer slots, the error field).  The confirm call's
outcome and the polling cycle's terminal outcome are inputs (they are
produced by the network); the count of network requests issued is
returned alongside the state so that "no network activity" is provable.
UI-only state (modal, progress, loading flag, `lastApiResponse`,
`jobInfo`) is not part of the claims and is omitted. -/

/-- The observable state of `App` that `generate`, `removeItem` and the
auto-populate effect touch. -/
structure AppState where
  history : List JobRecord
  leftId : Option String
  rightId : Option String
  error : String
deriving Repr, DecidableEq

/-- Outcome of the confirm `fetch`: either the awaited promise rejected
(`threw`, carrying the exception message `e?.message`), or a response
arrived with `res.ok`, `res.status` and a parsed body. -/
inductive SubmitOutcome where
  | threw (msg : String) : SubmitOutcome
  | responded (resOk : Bool) (resStatus : Nat) (data : ConfirmData) :
      SubmitOutcome
deriving Repr, DecidableEq

/-- Terminal outcome of `pollStatusUntilDone` after the confirm step
succeeded: resolved with the final `done` status body, or rejected with
an error message (failed / timed out / status-check error); `calls`
counts the status requests issued by the cycle. -/
inductive PollOutcome where
  | finished (sd : StatusData) (calls : Nat) : PollOutcome
  | errored (msg : String) (calls : Nat) : PollOutcome
deriving Repr, DecidableEq

/-- Validation message, `App.jsx` lines 273-275. -/
def msgNoApiUrl : String :=
  "VITE_API_URL is not set. Add it in Amplify env vars and redeploy."

/-- Validation message, `App.jsx` line 279. -/
def msgNoTopic : String := "Please enter a topic."

/-- Validation message, `App.jsx` line 283. -/
def msgFillQuestions : String := "Please fill all 5 questions."

/-- Thrown in `pollStatusUntilDone`, `App.jsx` lines 182-184. -/
def msgNoStatusUrl : String :=
  "Status API URL missing. Set VITE_STATUS_URL in Amplify env vars."

/-- Thrown in `generate`, `App.jsx` line 321. -/
def msgNoIds : String := "Confirm API did not return userPhone/instantId."

/-- The `newItem` record built in `App.jsx` lines 339-353.  `t` is the
trimmed topic, `data` the confirm body, `sd` the final status body,
`fallbackId` the value of `crypto.randomUUID?.() ?? Date.now()` (used
only when `instantId` is falsy), and `now` the value of `nowIso()`. -/
def mkNewItem (t : String) (data : ConfirmData) (sd : StatusData)
    (fallbackId now : String) : JobRecord :=
  let jobCreatedAt := jsOrS data.createdAt now
  { id := if data.instantId = "" then fallbackId else data.instantId
  , createdAt := jsOrS sd.createdAt jobCreatedAt
  , topic := t
  , title := jsOrS sd.title t
  , instantId := data.instantId
  , pdfUrl := sd.pdfUrl
  , status := jsOrS sd.status "done"
  , s3Bucket := sd.s3Bucket
  , s3Key := sd.s3Key
  , apiConfirm := data
  , apiStatus := sd }

/-- `generate` from `App.jsx` lines 265-369 as a pure transition.
Returns the new observable state and the number of network requests
issued.  Mirrors the source order: clear error; trim; the three
validation gates (each returning before any network call); the confirm
`fetch`; the `res.ok && data.ok` gate; the `userPhone`/`instantId` gate;
the `STATUS_URL` presence check at the top of `pollStatusUntilDone`;
the polling cycle; on `Done`, build `newItem`, prepend it (capped at
200), shift the previous left slot into the right slot
(`setRightId(prev => leftId || prev)`), and select the new record on
the left.  Every `throw` lands in the single `catch`, which stores the
message in `error` and leaves history and slots untouched. -/
def generateModel (apiUrl statusUrl topic : String) (questions : List String)
    (submit : SubmitOutcome) (poll : PollOutcome) (fallbackId now : String)
    (s : AppState) : AppState × Nat :=
  let s0 := { s with error := "" }
  let t := jsTrim topic
  let qs := questions.map jsTrim
  if apiUrl = "" then ({ s0 with error := msgNoApiUrl }, 0)
  else if t = "" then ({ s0 with error := msgNoTopic }, 0)
  else if qs.any (fun q => q = "") then
    ({ s0 with error := msgFillQuestions }, 0)
  else
    match submit with
    | SubmitOutcome.threw m => ({ s0 with error := jsOrS m "Server error" }, 1)
    | SubmitOutcome.responded resOk resStatus data =>
      if !resOk || !data.ok then
        let m := buildErrorMessage resStatus data.error data.message
          data.details data.raw "Request failed"
        ({ s0 with error := m }, 1)
      else if data.userPhone = "" || data.instantId = "" then
        ({ s0 with error := msgNoIds }, 1)
      else if statusUrl = "" then
        ({ s0 with error := msgNoStatusUrl }, 1)
      else
        match poll with
        | PollOutcome.errored m calls =>
          ({ s0 with error := jsOrS m "Server error" }, 1 + calls)
        | PollOutcome.finished sd calls =>
          let newItem := mkNewItem t data sd fallbackId now
          ({ history := (newItem :: s0.history).take 200
           , leftId := some newItem.id
           , rightId := jsOrId s0.leftId s0.rightId
           , error := "" }, 1 + calls)

/-- Claim C1: in every run of `generate` whose confirm call succeeds
(response ok, body ok, both correlation ids present) and whose polling
cycle ends in `Done`, exactly one `JobRecord` is prepended to history
(the tail being the previous history, truncated to the 200-cap), its id
becomes the left viewer slot, and the prior left occupant moves to the
right slot (when there was no prior left occupant the right slot is
unchanged); and in every run whose submission fails — the confirm fetch
threw, the response was not ok, the body was not ok, or the correlation
ids were missing — no record is added to history. -/
theorem generate_record_and_slots
    (apiUrl statusUrl topic : String) (questions : List String)
    (resStatus : Nat) (data : ConfirmData) (sd : StatusData) (calls : Nat)
    (fallbackId now : String) (s : AppState)
    (hapi : apiUrl ≠ "") (ht : jsTrim topic ≠ "")
    (hq : ∀ q ∈ questions, jsTrim q ≠ "")
    (hok : data.ok = true) (hup : data.userPhone ≠ "")
    (hid : data.instantId ≠ "") (hsu : statusUrl ≠ "") :
    ((generateModel apiUrl statusUrl topic questions
        (SubmitOutcome.responded true resStatus data)
        (PollOutcome.finished sd calls) fallbackId now s).1.history
      = mkNewItem (jsTrim topic) data sd fallbackId now
          :: s.history.take 199) ∧
    (s.history.length < 200 →
      (generateModel apiUrl statusUrl topic questions
        (SubmitOutcome.responded true resStatus data)
        (PollOutcome.finished sd calls) fallbackId now s).1.history
      = mkNewItem (jsTrim topic) data sd fallbackId now :: s.history) ∧
    ((generateModel apiUrl statusUrl topic questions
        (SubmitOutcome.responded true resStatus data)
        (PollOutcome.finished sd calls) fallbackId now s).1.leftId
      = some (mkNewItem (jsTrim topic) data sd fallbackId now).id) ∧
    (∀ x, s.leftId = some x → x ≠ "" →
      (generateModel apiUrl statusUrl topic questions
        (SubmitOutcome.responded true resStatus data)
        (PollOutcome.finished sd calls) fallbackId now s).1.rightId
      = some x) ∧
    (s.leftId = none →
      (generateModel apiUrl statusUrl topic questions
        (SubmitOutcome.responded true resStatus data)
        (PollOutcome.finished sd calls) fallbackId now s).1.rightId
      = s.rightId) ∧
    (∀ m poll, (generateModel apiUrl statusUrl topic questions
        (SubmitOutcome.threw m) poll fallbackId now s).1.history
      = s.history) ∧
    (∀ rs d poll, (generateModel apiUrl statusUrl topic questions
        (SubmitOutcome.responded false rs d) poll fallbackId now s).1.history
      = s.history) ∧
    (∀ rs d poll, d.ok = false →
      (generateModel apiUrl statusUrl topic questions
        (SubmitOutcome.responded true rs d) poll fallbackId now s).1.history
      = s.history) ∧
    (∀ rs d poll, d.userPhone = "" ∨ d.instantId = "" →
      (generateModel apiUrl statusUrl topic questions
        (SubmitOutcome.responded true rs d) poll fallbackId now s).1.history
      = s.history) := by
  have hqs : (questions.map jsTrim).any (fun q => q = "") = false := by
    rw [List.any_eq_false]
    intro q hqmem
    rcases List.mem_map.mp hqmem with ⟨q0, hq0, rfl⟩
    simpa using hq q0 hq0
  refine ⟨?_, ?_, ?_, ?_, ?_, ?_, ?_, ?_, ?_⟩
  · simp only [generateModel, hapi, ht, hqs, hok, hup, hid, hsu]
    simp [show (200 : Nat) = 199 + 1 from rfl, List.take_succ_cons]
  · intro hlen
    simp only [generateModel, hapi, ht, hqs, hok, hup, hid, hsu]
    simp [show (200 : Nat) = 199 + 1 from rfl, List.take_succ_cons,
      List.take_of_length_le (Nat.le_of_lt_succ hlen)]
  · simp [generateModel, hapi, ht, hqs, hok, hup, hid, hsu]
  · intro x hx hxne
    simp [generateModel, hapi, ht, hqs, hok, hup, hid, hsu, hx, jsOrId, hxne]
  · intro hx
    simp [generateModel, hapi, ht, hqs, hok, hup, hid, hsu, hx, jsOrId]
  · intro m poll
    simp [generateModel, hapi, ht, hqs]
  · intro rs d poll
    simp [generateModel, hapi, ht, hqs]
  · intro rs d poll hd
    simp [generateModel, hapi, ht, hqs, hd]
  · intro rs d poll hd
    by_cases hdo : d.ok = true
    · rcases hd with hd | hd <;>
        simp [generateModel, hapi, ht, hqs, hdo, hd]
    · simp [generateModel, hapi, ht, hqs, hdo]

/-- A successful confirm body with both correlation ids present. -/
def confirmJ1 : ConfirmData :=
  { ok := true, userPhone := "p1", instantId := "j1" }

/-- A concrete pre-run state: two older records selected in the viewer
slots. -/
def recOldLeft : JobRecord :=
  { id := "old-left", createdAt := "2024-01-01T00:00:00.000Z"
  , topic := "old", title := "old", instantId := "old-left"
  , pdfUrl := "", status := "done", s3Bucket := "", s3Key := "" }

/-- Witness for C1: a concrete successful run prepends exactly the new
record, selects it on the left, and moves the prior left occupant to
the right slot. -/
theorem generate_record_and_slots_witness :
    ((generateModel "https://h/confirm" "https://h/status" " FMCG "
        ["q1", "q2", "q3", "q4", "q5"]
        (SubmitOutcome.responded true 200 confirmJ1)
        (PollOutcome.finished sdDone 2) "fb" "2024-06-01T00:00:00.000Z"
        { history := [recOldLeft], leftId := some "old-left"
        , rightId := none, error := "" }).1.history
      = mkNewItem "FMCG" confirmJ1 sdDone "fb" "2024-06-01T00:00:00.000Z"
          :: [recOldLeft]) ∧
    ((generateModel "https://h/confirm" "https://h/status" " FMCG "
        ["q1", "q2", "q3", "q4", "q5"]
        (SubmitOutcome.responded true 200 confirmJ1)
        (PollOutcome.finished sdDone 2) "fb" "2024-06-01T00:00:00.000Z"
        { history := [recOldLeft], leftId := some "old-left"
        , rightId := none, error := "" }).1.rightId = some "old-left") := by
  have h := generate_record_and_slots "https://h/confirm" "https://h/status"
    " FMCG " ["q1", "q2", "q3", "q4", "q5"] 200 confirmJ1 sdDone 2 "fb"
    "2024-06-01T00:00:00.000Z"
    { history := [recOldLeft], leftId := some "old-left"
    , rightId := none, error := "" }
    (by decide) (by decide) (by decide) rfl (by decide) (by decide)
    (by decide)
  exact ⟨by simpa using h.2.1 (by decide),
    h.2.2.2.1 "old-left" rfl (by decide)⟩

/-- A `done` status body carrying its own `createdAt`, used to build a
second, distinct record from the same remote instant identifier. -/
def sdDoneLater : StatusData :=
  { ok := true, status := "done", createdAt := "2024-06-01T00:00:00.000Z" }

/-- Counterexample to claim C5 as stated: two successful submissions
that receive the same remote instant identifier `"j1"` but different
submission timestamps (and different fallback ids) produce two distinct
`JobRecord`s with the SAME id — the id is the bare instant identifier,
with no local disambiguator appended, so ids are not unique when the
remote identifier repeats. -/
theorem record_id_no_disambiguator_counterexample :
    (mkNewItem "t" confirmJ1 sdDone "fb1" "2024-01-01T00:00:00.000Z").id
      = (mkNewItem "t" confirmJ1 sdDoneLater "fb2"
          "2024-06-01T00:00:00.000Z").id ∧
    mkNewItem "t" confirmJ1 sdDone "fb1" "2024-01-01T00:00:00.000Z"
      ≠ mkNewItem "t" confirmJ1 sdDoneLater "fb2"
          "2024-06-01T00:00:00.000Z" := by
  exact ⟨by decide, by decide⟩

/-- Claim C5 (amended): the `JobRecord` id equals the remote instant
identifier whenever that identifier is non-empty — no local
disambiguator is added — and only when the remote identifier is absent
does the id fall back to a locally generated value
(`crypto.randomUUID?.() ?? Date.now()`); record ids are therefore NOT
unique when two submissions receive the same remote instant
identifier. -/
theorem record_id_is_instantId (t : String) (data : ConfirmData)
    (sd : StatusData) (fallbackId now : String)
    (h : data.instantId ≠ "") :
    (mkNewItem t data sd fallbackId now).id = data.instantId ∧
    (∀ data0 : ConfirmData, data0.instantId = "" →
      (mkNewItem t data0 sd fallbackId now).id = fallbackId) := by
  constructor
  · simp [mkNewItem, h]
  · intro data0 h0
    simp [mkNewItem, h0]

/-- Witness for C5 (amended): with instant identifier `"j1"` the record
id is `"j1"`. -/
theorem record_id_is_instantId_witness :
    (mkNewItem "t" confirmJ1 sdDone "fb" "2024-01-01T00:00:00.000Z").id
      = confirmJ1.instantId :=
  (record_id_is_instantId "t" confirmJ1 sdDone "fb"
    "2024-01-01T00:00:00.000Z" (by decide)).1

/-- A `new URL` oracle that rejects every input (models
`new URL("not-a-url")` throwing for a string that is not a URL). -/
def parseUrlThrows : String → Option JsUrl := fun _ => none

/-- Counterexample to claim C8 as stated: with `VITE_API_URL` set to a
non-empty string that does not parse as a URL and no explicit status
URL, the derived status URL is empty — a missing required endpoint URL.
Yet a run of `generate` with a valid topic and five valid questions
makes the confirm network call (one request) before surfacing the
missing-status-URL configuration error: this endpoint-URL precondition
is NOT checked before all network activity. -/
theorem generate_status_url_checked_late_counterexample :
    deriveStatusUrl parseUrlThrows "not-a-url" "" = "" ∧
    (generateModel "not-a-url" (deriveStatusUrl parseUrlThrows "not-a-url" "")
        "topic" ["q1", "q2", "q3", "q4", "q5"]
        (SubmitOutcome.responded true 200 confirmJ1)
        (PollOutcome.errored msgNoStatusUrl 0) "fb" "now"
        { history := [], leftId := none, rightId := none
        , error := "" }).2 = 1 ∧
    (generateModel "not-a-url" (deriveStatusUrl parseUrlThrows "not-a-url" "")
        "topic" ["q1", "q2", "q3", "q4", "q5"]
        (SubmitOutcome.responded true 200 confirmJ1)
        (PollOutcome.errored msgNoStatusUrl 0) "fb" "now"
        { history := [], leftId := none, rightId := none
        , error := "" }).1.error = msgNoStatusUrl ∧
    (1 : Nat) ≠ 0 := by
  exact ⟨rfl, by decide, by decide, by decide⟩

/-- Claim C8 (amended): the confirm endpoint URL, the trimmed topic and
the five trimmed questions are checked before any network call; each
violation produces its own distinct user-facing error, causes no network
activity (zero requests), and leaves history unchanged.  The status
endpoint URL, by contrast, is validated only at the start of polling:
its absence produces its own error and leaves history unchanged, but
only after the confirm call has been made (one request). -/
theorem generate_preconditions (apiUrl statusUrl topic : String)
    (questions : List String) (submit : SubmitOutcome) (poll : PollOutcome)
    (fallbackId now : String) (s : AppState) :
    (apiUrl = "" →
      generateModel apiUrl statusUrl topic questions submit poll
          fallbackId now s
        = ({ s with error := msgNoApiUrl }, 0)) ∧
    (apiUrl ≠ "" → jsTrim topic = "" →
      generateModel apiUrl statusUrl topic questions submit poll
          fallbackId now s
        = ({ s with error := msgNoTopic }, 0)) ∧
    (apiUrl ≠ "" → jsTrim topic ≠ "" →
      (questions.map jsTrim).any (fun q => q = "") = true →
      generateModel apiUrl statusUrl topic questions submit poll
          fallbackId now s
        = ({ s with error := msgFillQuestions }, 0)) ∧
    (msgNoApiUrl ≠ msgNoTopic ∧ msgNoApiUrl ≠ msgFillQuestions ∧
      msgNoTopic ≠ msgFillQuestions ∧ msgNoApiUrl ≠ msgNoStatusUrl ∧
      msgNoTopic ≠ msgNoStatusUrl ∧ msgFillQuestions ≠ msgNoStatusUrl) ∧
    (∀ rs data, apiUrl ≠ "" → jsTrim topic ≠ "" →
      (questions.map jsTrim).any (fun q => q = "") = false →
      data.ok = true → data.userPhone ≠ "" → data.instantId ≠ "" →
      statusUrl = "" →
      generateModel apiUrl statusUrl topic questions
          (SubmitOutcome.responded true rs data) poll fallbackId now s
        = ({ s with error := msgNoStatusUrl }, 1)) := by
  refine ⟨?_, ?_, ?_, ⟨by decide, by decide, by decide, by decide,
    by decide, by decide⟩, ?_⟩
  · intro h
    simp [generateModel, h]
  · intro h ht
    simp [generateModel, h, ht]
  · intro h ht hqs
    simp [generateModel, h, ht, hqs]
  · intro rs data h ht hqs hok hup hid
    intro hsu
    simp [generateModel, h, ht, hqs, hok, hup, hid, hsu]

/-- Witness for C8 (amended): submitting with one blank question makes
no network call, shows the validation error, and leaves the (empty)
history unchanged. -/
theorem generate_preconditions_witness :
    generateModel "https://h/confirm" "https://h/status" "topic"
        ["q1", " ", "q3", "q4", "q5"]
        (SubmitOutcome.responded true 200 confirmJ1)
        (PollOutcome.finished sdDone 2) "fb" "now"
        { history := [], leftId := none, rightId := none, error := "" }
      = ({ history := [], leftId := none, rightId := none
         , error := msgFillQuestions }, 0) :=
  (generate_preconditions "https://h/confirm" "https://h/status" "topic"
    ["q1", " ", "q3", "q4", "q5"]
    (SubmitOutcome.responded true 200 confirmJ1)
    (PollOutcome.finished sdDone 2) "fb" "now"
    { history := [], leftId := none, rightId := none
    , error := "" }).2.2.1 (by decide) (by decide) (by decide)

/-! ## History insertion (`App.jsx` line 355) -/

/-- `setHistory((prev) => [newItem, ...prev].slice(0, 200))`. -/
def insertHistory (newItem : JobRecord) (prev : List JobRecord) :
    List JobRecord :=
  (newItem :: prev).take 200

/-- Newest-first order by `createdAt`, relative to a `Date`-parse oracle
`dv` mapping a `createdAt` string to its epoch-milliseconds value. -/
def sortedNewestFirst (dv : String → Int) (l : List JobRecord) : Prop :=
  List.Chain' (fun a b => dv b.createdAt ≤ dv a.createdAt) l

/-- A record created in January 2024. -/
def rJan : JobRecord :=
  { id := "r-jan", createdAt := "2024-01-01T00:00:00.000Z"
  , topic := "t1", title := "t1", instantId := "r-jan"
  , pdfUrl := "", status := "done", s3Bucket := "", s3Key := "" }

/-- A record created in June 2024. -/
def rJun : JobRecord :=
  { id := "r-jun", createdAt := "2024-06-01T00:00:00.000Z"
  , topic := "t2", title := "t2", instantId := "r-jun"
  , pdfUrl := "", status := "done", s3Bucket := "", s3Key := "" }

/-- A `Date`-parse oracle consistent with real `new Date(...)` values for
the two ISO timestamps above (epoch milliseconds). -/
def dvEpoch : String → Int := fun s =>
  if s = "2024-01-01T00:00:00.000Z" then 1704067200000
  else if s = "2024-06-01T00:00:00.000Z" then 1717200000000
  else 0

/-- Counterexample to claim C4 as stated: inserting a record whose
`createdAt` is OLDER than the existing head (the remote `createdAt` is
taken as-is) blindly prepends it, so the resulting list is NOT sorted
newest-first, even though the starting history (of at most 200 entries)
was sorted. -/
theorem insertHistory_unsorted_counterexample :
    [rJun].length ≤ 200 ∧ sortedNewestFirst dvEpoch [rJun] ∧
    ¬ sortedNewestFirst dvEpoch (insertHistory rJan [rJun]) := by
  refine ⟨by decide, ?_, ?_⟩
  · exact List.chain'_singleton _
  · intro h
    have := List.chain'_cons.mp h
    revert this
    decide

/-- Claim C4 (amended): for every history with at most 200 entries,
inserting one new record either increments the length by one (when the
history had fewer than 200 entries) or leaves it at 200 with the oldest
(last) entry evicted; and the result is sorted newest-first by
`createdAt` PROVIDED the history was sorted and the new record's
`createdAt` is at least that of every existing record — the insertion
itself merely prepends and does not re-sort. -/
theorem insertHistory_spec (dv : String → Int) (newItem : JobRecord)
    (prev : List JobRecord) :
    (prev.length < 200 →
      (insertHistory newItem prev).length = prev.length + 1) ∧
    (prev.length = 200 →
      (insertHistory newItem prev).length = 200 ∧
      insertHistory newItem prev = newItem :: prev.dropLast) ∧
    (sortedNewestFirst dv prev →
      (∀ r ∈ prev, dv r.createdAt ≤ dv newItem.createdAt) →
      sortedNewestFirst dv (insertHistory newItem prev)) := by
  refine ⟨?_, ?_, ?_⟩
  · intro h
    simp only [insertHistory, List.length_take, List.length_cons]
    omega
  · intro h
    constructor
    · simp only [insertHistory, List.length_take, List.length_cons]
      omega
    · rw [insertHistory, List.dropLast_eq_take,
        show (200 : Nat) = 199 + 1 from rfl, List.take_succ_cons, h]
  · intro hsorted hnewest
    have hchain : List.Chain'
        (fun a b => dv b.createdAt ≤ dv a.createdAt) (newItem :: prev) := by
      rw [List.chain'_cons']
      refine ⟨?_, hsorted⟩
      intro y hy
      exact hnewest y (List.mem_of_mem_head? hy)
    exact hchain.take 200

/-- Witness for C4 (amended): inserting the June record into the
singleton January history increments the length to 2 and the result is
sorted newest-first. -/
theorem insertHistory_spec_witness :
    (insertHistory rJun [rJan]).length = 1 + 1 ∧
    sortedNewestFirst dvEpoch (insertHistory rJun [rJan]) :=
  ⟨(insertHistory_spec dvEpoch rJun [rJan]).1 (by decide),
   (insertHistory_spec dvEpoch rJun [rJan]).2.2 (List.chain'_singleton _)
     (by decide)⟩

/-! ## Selection model (`removeItem`, `App.jsx` lines 392-396, and the
history auto-populate effect, `App.jsx` lines 135-145) -/

/-- `removeItem` from `App.jsx` lines 392-396: filter the record out of
history; clear a slot only if it equals the removed id. -/
def removeItem (itemId : String) (s : AppState) : AppState :=
  { history := s.history.filter (fun x => x.id ≠ itemId)
  , leftId := if s.leftId = some itemId then none else s.leftId
  , rightId := if s.rightId = some itemId then none else s.rightId
  , error := s.error }

/-- `[...history].sort((a, b) => new Date(b.createdAt || 0) - new
Date(a.createdAt || 0))` from `App.jsx` lines 137-139: a stable sort,
descending by the `Date` value of `createdAt` under the parse oracle
`dv`. -/
def sortByCreatedDesc (dv : String → Int) (l : List JobRecord) :
    List JobRecord :=
  l.mergeSort (fun a b => decide (dv b.createdAt ≤ dv a.createdAt))

/-- The history auto-populate effect, `App.jsx` lines 135-145: when the
history is non-empty, fill each still-`null` slot —
`setLeftId(prev => prev ?? first)` and
`setRightId(prev => prev ?? second ?? first)` — from the sorted copy. -/
def historyEffect (dv : String → Int) (s : AppState) : AppState :=
  if s.history.isEmpty then s
  else
    let sorted := sortByCreatedDesc dv s.history
    let first := sorted.head?.map (fun r => r.id)
    let second := sorted[1]?.map (fun r => r.id)
    { history := s.history
    , leftId := jsNullish s.leftId first
    , rightId := jsNullish s.rightId (jsNullish second first)
    , error := s.error }

theorem sortByCreatedDesc_trans (dv : String → Int) :
    ∀ a b c : JobRecord,
      decide (dv b.createdAt ≤ dv a.createdAt) = true →
      decide (dv c.createdAt ≤ dv b.createdAt) = true →
      decide (dv c.createdAt ≤ dv a.createdAt) = true := by
  intro a b c hab hbc
  simp only [decide_eq_true_eq] at hab hbc ⊢
  omega

theorem sortByCreatedDesc_total (dv : String → Int) :
    ∀ a b : JobRecord,
      (decide (dv b.createdAt ≤ dv a.createdAt)
        || decide (dv a.createdAt ≤ dv b.createdAt)) = true := by
  intro a b
  simp only [Bool.or_eq_true, decide_eq_true_eq]
  omega

/-- The head of the sorted copy is a record of the history whose
`createdAt` value is maximal (it is "the newest record"). -/
theorem sortByCreatedDesc_head_max (dv : String → Int)
    (l : List JobRecord) (h : l ≠ []) :
    ∃ r, (sortByCreatedDesc dv l).head? = some r ∧ r ∈ l ∧
      ∀ x ∈ l, dv x.createdAt ≤ dv r.createdAt := by
  cases hs : sortByCreatedDesc dv l with
  | nil =>
    exfalso
    have hlen : (sortByCreatedDesc dv l).length = l.length :=
      List.length_mergeSort l
    rw [hs] at hlen
    exact h (List.eq_nil_of_length_eq_zero hlen.symm)
  | cons r t =>
    have hmemr : r ∈ sortByCreatedDesc dv l := by
      rw [hs]; exact List.mem_cons_self r t
    refine ⟨r, rfl, List.mem_mergeSort.mp hmemr, ?_⟩
    intro x hx
    have hx' : x ∈ r :: t := by
      rw [← hs]; exact List.mem_mergeSort.mpr hx
    rcases List.mem_cons.mp hx' with rfl | hxt
    · exact le_refl _
    · have hpw := List.sorted_mergeSort (sortByCreatedDesc_trans dv)
        (sortByCreatedDesc_total dv) l
      rw [show l.mergeSort _ = sortByCreatedDesc dv l from rfl, hs] at hpw
      have := (List.pairwise_cons.mp hpw).1 x hxt
      simpa using this

/-- Every element of the sorted copy is a record of the history. -/
theorem sortByCreatedDesc_getElem?_mem (dv : String → Int)
    (l : List JobRecord) (i : Nat) (r : JobRecord)
    (h : (sortByCreatedDesc dv l)[i]? = some r) : r ∈ l :=
  List.mem_mergeSort.mp (List.getElem?_mem h)

/-- When the history is non-empty and the left slot is empty, the
auto-populate effect fills the left slot with (the id of) a record of
the history whose `createdAt` value is maximal. -/
theorem historyEffect_left_filled (dv : String → Int) (s : AppState)
    (h : s.history ≠ []) (hl : s.leftId = none) :
    ∃ r ∈ s.history, (historyEffect dv s).leftId = some r.id ∧
      ∀ x ∈ s.history, dv x.createdAt ≤ dv r.createdAt := by
  have he : s.history.isEmpty = false := by
    simpa [List.isEmpty_iff] using h
  rcases sortByCreatedDesc_head_max dv s.history h with ⟨r, hhead, hmem, hmax⟩
  refine ⟨r, hmem, ?_, hmax⟩
  simp [historyEffect, he, hl, jsNullish, hhead]

/-- On a history with at least two records, the sorted copy decomposes
as `r1 :: r2 :: rest` — a permutation of the history in which `r1` is a
newest record (its `createdAt` value bounds every record) and `r2` is a
second-newest record (its `createdAt` value bounds every remaining
record). -/
theorem sortByCreatedDesc_pair (dv : String → Int) (l : List JobRecord)
    (h2 : 2 ≤ l.length) :
    ∃ r1 r2 rest, sortByCreatedDesc dv l = r1 :: r2 :: rest ∧
      l.Perm (r1 :: r2 :: rest) ∧
      (∀ x ∈ l, dv x.createdAt ≤ dv r1.createdAt) ∧
      dv r2.createdAt ≤ dv r1.createdAt ∧
      (∀ x ∈ rest, dv x.createdAt ≤ dv r2.createdAt) := by
  have hlen : (sortByCreatedDesc dv l).length = l.length :=
    List.length_mergeSort l
  cases hs : sortByCreatedDesc dv l with
  | nil =>
    rw [hs] at hlen
    simp at hlen
    omega
  | cons r1 t =>
    cases t with
    | nil =>
      rw [hs] at hlen
      simp at hlen
      omega
    | cons r2 rest =>
      have hperm : (sortByCreatedDesc dv l).Perm l :=
        List.mergeSort_perm l _
      rw [hs] at hperm
      have hpw := List.sorted_mergeSort (sortByCreatedDesc_trans dv)
        (sortByCreatedDesc_total dv) l
      rw [show l.mergeSort _ = sortByCreatedDesc dv l from rfl, hs] at hpw
      obtain ⟨h1, hpw2⟩ := List.pairwise_cons.mp hpw
      obtain ⟨h2r, _⟩ := List.pairwise_cons.mp hpw2
      simp only [decide_eq_true_eq] at h1 h2r
      refine ⟨r1, r2, rest, rfl, hperm.symm, ?_, ?_, h2r⟩
      · intro x hx
        have hx' : x ∈ r1 :: r2 :: rest := by
          rw [← hs]
          exact List.mem_mergeSort.mpr hx
        rcases List.mem_cons.mp hx' with rfl | hxt
        · exact le_refl _
        · exact h1 x hxt
      · exact h1 r2 (List.mem_cons_self r2 rest)

/-- Claim C7 (amended): the auto-populate effect fills each viewer slot
INDEPENDENTLY: whenever the history is non-empty, a `left` slot that is
currently empty is populated with (the id of) a newest record, and an
empty `right` slot is populated with the second-newest record (the
history decomposes, up to permutation, into a newest record `r1`, a
second-newest record `r2` whose `createdAt` bounds every remaining
record, and the rest — the right slot receives `r2`), or with the
newest record again when only one record exists — regardless of whether
the other slot is empty; a slot already holding a value is never
overridden, and an empty history leaves the state unchanged. -/
theorem historyEffect_spec (dv : String → Int) (s : AppState) :
    (s.history = [] → historyEffect dv s = s) ∧
    (s.leftId ≠ none → (historyEffect dv s).leftId = s.leftId) ∧
    (s.rightId ≠ none → (historyEffect dv s).rightId = s.rightId) ∧
    (s.history ≠ [] → s.leftId = none →
      ∃ r ∈ s.history, (historyEffect dv s).leftId = some r.id ∧
        ∀ x ∈ s.history, dv x.createdAt ≤ dv r.createdAt) ∧
    (∀ r, s.history = [r] → s.rightId = none →
      (historyEffect dv s).rightId = some r.id) ∧
    (2 ≤ s.history.length → s.rightId = none →
      ∃ r1 r2 rest, s.history.Perm (r1 :: r2 :: rest) ∧
        (historyEffect dv s).rightId = some r2.id ∧
        (∀ x ∈ s.history, dv x.createdAt ≤ dv r1.createdAt) ∧
        dv r2.createdAt ≤ dv r1.createdAt ∧
        (∀ x ∈ rest, dv x.createdAt ≤ dv r2.createdAt)) := by
  refine ⟨?_, ?_, ?_, ?_, ?_, ?_⟩
  · intro h
    simp [historyEffect, h]
  · intro h
    by_cases he : s.history.isEmpty
    · simp [historyEffect, he]
    · cases hl : s.leftId with
      | none => exact absurd hl h
      | some v => simp [historyEffect, he, hl, jsNullish]
  · intro h
    by_cases he : s.history.isEmpty
    · simp [historyEffect, he]
    · cases hr : s.rightId with
      | none => exact absurd hr h
      | some v => simp [historyEffect, he, hr, jsNullish]
  · exact historyEffect_left_filled dv s
  · intro r hist1 hr
    simp [historyEffect, hist1, hr, jsNullish, sortByCreatedDesc,
      List.mergeSort_singleton]
  · intro hlen2 hr
    have he : s.history.isEmpty = false := by
      cases hh : s.history with
      | nil => rw [hh] at hlen2; simp at hlen2
      | cons a t => rfl
    rcases sortByCreatedDesc_pair dv s.history hlen2
      with ⟨r1, r2, rest, hs, hperm, hmax1, h21, hmax2⟩
    refine ⟨r1, r2, rest, hperm, ?_, hmax1, h21, hmax2⟩
    simp [historyEffect, he, hr, jsNullish, hs]

/-- A two-record history with both viewer slots empty. -/
def stBothEmpty : AppState :=
  { history := [rJun, rJan], leftId := none, rightId := none, error := "" }

/-- A one-record history with both viewer slots empty. -/
def stOneEmpty : AppState :=
  { history := [rJun], leftId := none, rightId := none, error := "" }

/-- Witness for C7 (amended): on the two-record history with both slots
empty, the effect fills the left slot with the newest record and the
right slot with the second-newest record; on the one-record history it
fills the right slot with the newest record again. -/
theorem historyEffect_spec_witness :
    (∃ r ∈ [rJun, rJan],
      (historyEffect dvEpoch stBothEmpty).leftId = some r.id ∧
      ∀ x ∈ [rJun, rJan],
        dvEpoch x.createdAt ≤ dvEpoch r.createdAt) ∧
    (∃ r1 r2 rest, ([rJun, rJan] : List JobRecord).Perm (r1 :: r2 :: rest) ∧
      (historyEffect dvEpoch stBothEmpty).rightId = some r2.id ∧
      (∀ x ∈ [rJun, rJan],
        dvEpoch x.createdAt ≤ dvEpoch r1.createdAt) ∧
      dvEpoch r2.createdAt ≤ dvEpoch r1.createdAt ∧
      (∀ x ∈ rest, dvEpoch x.createdAt ≤ dvEpoch r2.createdAt)) ∧
    (historyEffect dvEpoch stOneEmpty).rightId = some rJun.id :=
  ⟨(historyEffect_spec dvEpoch stBothEmpty).2.2.2.1 (by decide) rfl,
   (historyEffect_spec dvEpoch stBothEmpty).2.2.2.2.2 (by decide) rfl,
   (historyEffect_spec dvEpoch stOneEmpty).2.2.2.2.1 rJun rfl rfl⟩

/-- A state in which the user has explicitly chosen a right-slot value
while the left slot is empty. -/
def stLeftEmpty : AppState :=
  { history := [rJun], leftId := none, rightId := some "user-choice"
  , error := "" }

unseal List.merge List.mergeSort in
/-- Counterexample to claim C7 as stated: the auto-populate effect runs
even though the slots are NOT both empty — with `right` holding an
explicit user choice and `left` empty, the effect still populates
`left` with the newest record. -/
theorem historyEffect_not_both_empty_counterexample :
    stLeftEmpty.rightId = some "user-choice" ∧
    stLeftEmpty.rightId ≠ none ∧
    (historyEffect dvEpoch stLeftEmpty).leftId = some "r-jun" ∧
    (historyEffect dvEpoch stLeftEmpty).leftId ≠ none := by
  refine ⟨rfl, by decide, by decide, by decide⟩

/-- Claim C6 (amended): `removeItem id` deletes from history exactly the
records whose id equals `id`, and itself clears each viewer slot equal
to `id` to empty while leaving any slot not equal to `id` unchanged;
however, the history auto-populate effect that follows every history
change immediately reassigns the cleared slot to a remaining record
whenever the remaining history is non-empty — the slot stays empty only
when the history became empty. -/
theorem removeItem_spec (dv : String → Int) (itemId : String)
    (s : AppState) :
    ((removeItem itemId s).history
      = s.history.filter (fun x => x.id ≠ itemId)) ∧
    (s.leftId = some itemId → (removeItem itemId s).leftId = none) ∧
    (s.leftId ≠ some itemId → (removeItem itemId s).leftId = s.leftId) ∧
    (s.rightId = some itemId → (removeItem itemId s).rightId = none) ∧
    (s.rightId ≠ some itemId → (removeItem itemId s).rightId = s.rightId) ∧
    (s.leftId = some itemId → (removeItem itemId s).history ≠ [] →
      ∃ r ∈ (removeItem itemId s).history,
        (historyEffect dv (removeItem itemId s)).leftId = some r.id ∧
        r.id ≠ itemId) := by
  refine ⟨rfl, ?_, ?_, ?_, ?_, ?_⟩
  · intro h
    simp [removeItem, h]
  · intro h
    simp [removeItem, h]
  · intro h
    simp [removeItem, h]
  · intro h
    simp [removeItem, h]
  · intro h hne
    have hl : (removeItem itemId s).leftId = none := by
      simp [removeItem, h]
    rcases historyEffect_left_filled dv (removeItem itemId s) hne hl
      with ⟨r, hmem, heq, _⟩
    refine ⟨r, hmem, heq, ?_⟩
    have := List.mem_filter.mp hmem
    simpa using this.2

/-- A state in which the record selected on the left is about to be
removed while another record remains. -/
def stRemove : AppState :=
  { history := [rJun, rJan], leftId := some "r-jun"
  , rightId := some "r-jan", error := "" }

unseal List.merge List.mergeSort in
/-- Counterexample to claim C6 as stated: removing the left-selected
record `"r-jun"` does clear the left slot, but the auto-populate effect
then reassigns the left slot to the remaining record `"r-jan"` — in the
observable post-state the slot is NOT left empty for the user to pick
again. -/
theorem removeItem_reassigned_counterexample :
    (removeItem "r-jun" stRemove).leftId = none ∧
    (historyEffect dvEpoch (removeItem "r-jun" stRemove)).leftId
      = some "r-jan" ∧
    (historyEffect dvEpoch (removeItem "r-jun" stRemove)).leftId ≠ none := by
  refine ⟨by decide, by decide, by decide⟩

/-- Witness for C6 (amended): applying the theorem to the concrete
removal state: the cleared left slot is reassigned to a remaining
record whose id differs from the removed one. -/
theorem removeItem_spec_witness :
    ∃ r ∈ (removeItem "r-jun" stRemove).history,
      (historyEffect dvEpoch (removeItem "r-jun" stRemove)).leftId
        = some r.id ∧ r.id ≠ "r-jun" :=
  (removeItem_spec dvEpoch "r-jun" stRemove).2.2.2.2.2 rfl (by decide)

end Rbr
